import Mathlib

/-!
# A shallow embedding of `server.c`

The program is a single-threaded TCP listener: it accepts one connection at a
time, reads one message, splits it into words, looks the first word up along
`PATH`, and runs it in a child process whose standard output is the connection.

Conventions of the embedding.

* A C string is the list of its characters before the terminating NUL.
* A `NULL` pointer is `none`.
* Everything the operating system decides (the result of `read`, `accept`,
  `access`, `fork`, the moment the signal arrives, ...) is a field of a world
  record, so every function below is a total, executable function of its
  arguments and of the world.
* A function that may call `exit` returns an `Outcome`; the system calls it
  makes are listed, in order, in a trace.
* Loops are bounded by a fuel argument. Running out of fuel is the separate
  outcome `Outcome.fuel` (or `none`), and the theorems show that the fuel the
  callers pass is always enough.
* Heap management (`strdup`, `free`) is not part of the model; allocation is
  assumed to succeed.
* The process starts with its three standard streams on a terminal, so the
  standard output stream is line buffered and every `printf` of a line is a
  write to descriptor 1. The text is not modelled, the write is: when
  descriptor 1 refers to a socket whose peer has gone, the write raises
  `SIGPIPE`, which the program does not handle, and the process is killed
  (`Outcome.killed`). Diagnostics go to the standard error stream, which
  stays on the terminal.
* The model follows the server process. After `fork` it is the parent; what
  the child does (`execv`) happens in another process and is not traced.
* A store past the end of an array is recorded, and the run ends there with
  `Outcome.undefined`: the C program has no defined behaviour after it.
-/

set_option linter.unusedVariables false

namespace Server

/-- A C string: the characters that precede the terminating NUL. -/
abbrev CString := List Char

/-! ## Constants -/

/-- The macro `BASE_TEN`, defined as 10. -/
def BASE_TEN : Nat := 10

/-- The macro `SIZE`, defined as 256. -/
def SIZE : Nat := 256

/-- The macro `BUFFER`, defined as 1024. -/
def BUFFER : Nat := 1024

/-- The macro `HUNDRED`, defined as 100. -/
def HUNDRED : Nat := 100

/-- The value of `EXIT_SUCCESS` in `<stdlib.h>`. -/
def EXIT_SUCCESS : Nat := 0

/-- The value of `EXIT_FAILURE` in `<stdlib.h>`. -/
def EXIT_FAILURE : Nat := 1

/-- The value of `UINT16_MAX` in `<stdint.h>`. -/
def UINT16_MAX : Nat := 65535

/-- The value of `UINTMAX_MAX` in `<stdint.h>` for a 64-bit `uintmax_t`. -/
def UINTMAX_MAX : Nat := 2 ^ 64 - 1

/-- The value of `ERANGE` in `<errno.h>`. -/
def ERANGE : Nat := 34

/-- The value of `STDOUT_FILENO` in `<unistd.h>`. -/
def STDOUT_FILENO : Nat := 1

/-- The value of `SIGPIPE` in `<signal.h>`. -/
def SIGPIPE : Nat := 13

/-- The value of `AF_INET` in `<sys/socket.h>`. -/
def AF_INET : Nat := 2

/-- The value of `AF_INET6` in `<sys/socket.h>`. -/
def AF_INET6 : Nat := 10

/-- The variable `optind` of `<unistd.h>`: the program never calls `getopt`, so
it keeps its initial value 1. -/
def optind : Int := 1

/-! ## Outcomes and traces -/

/-- How a call ends: it returns a value; or the process terminates through
`exit(code)` after printing `diagnostic` on the standard error stream; or the
process is killed by a signal; or the C program has left defined behaviour (a
store past the end of an array, a read of a cell never written); or the model
ran out of fuel. -/
inductive Outcome (α : Type) where
  | ret (value : α)
  | exit (code : Nat) (diagnostic : String)
  | killed (signal : Nat)
  | undefined
  | fuel
deriving DecidableEq

/-- What a descriptor refers to. -/
inductive File where
  | terminal
  | listening
  | connection (id : Nat)
deriving DecidableEq

/-- The system calls made while one connection is handled. -/
inductive Event where
  /-- The call `read(fd, message, sizeof(message))` returned `received`. -/
  | read (fd : Nat) (received : Int)
  /-- The store `message[index] = 0`. -/
  | terminate (index : Nat)
  /-- A line printed by `printf`: a write to descriptor 1, which refers to
  `target` at that moment. -/
  | printf (target : Option File)
  /-- The call `dup2(oldfd, newfd)` and whether it succeeded. -/
  | dup2 (oldfd newfd : Nat) (ok : Bool)
  /-- The call `findBinaryInPath(command)` and what it returned. -/
  | findBinaryInPath (command : CString) (binary_path : Option CString)
  /-- The call `fork()`: `some pid` in the parent when a child was created. -/
  | fork (child_pid : Option Nat)
  /-- The call `waitpid(pid, &status, 0)`. -/
  | waitpid (pid : Nat)
  /-- The call `close(fd)`. -/
  | close (fd : Nat)
deriving DecidableEq

/-- The descriptor table of the server process. -/
abbrev FdTable := Nat → Option File

/-- What `read` did: it delivered `bytes` (none at end of file), or failed. -/
inductive ReadResult where
  | data (bytes : List Char)
  | error
deriving DecidableEq

/-- What `accept` did. -/
inductive AcceptResult where
  | connection (fd : Nat)
  | eintr
  | error
deriving DecidableEq

/-- The events of `main`. -/
inductive MainEvent where
  /-- The call `socket(domain, SOCK_STREAM, 0)` and the descriptor it gave. -/
  | socket (fd : Option Nat)
  /-- The call `bind` on `sockfd` for `port`, and whether it succeeded. -/
  | bind (sockfd port : Nat) (ok : Bool)
  /-- The call `listen(sockfd, SOMAXCONN)`. -/
  | listen (sockfd : Nat) (ok : Bool)
  /-- The call `sigaction(SIGINT, ...)`. -/
  | sigaction (ok : Bool)
  /-- The test `while(exit_flag == 0)` read the flag as set or not. -/
  | loopCheck (exit_flag : Bool)
  /-- The test `if(exit_flag)` after a failed accept read the flag. -/
  | breakCheck (exit_flag : Bool)
  /-- The call `socket_accept_connection(sockfd, ...)` and the result of its
  `accept`; after a connection it prints one line on the standard output. -/
  | accept (sockfd : Nat) (result : AcceptResult)
  /-- The call `handle_connection(client_sockfd)` and the calls it made. -/
  | handle_connection (client_sockfd : Nat) (calls : List Event)
  /-- The call `close(fd)`. -/
  | close (fd : Nat)
deriving DecidableEq

/-- The result of a function of the set-up phase. -/
structure MainRun (α : Type) where
  trace : List MainEvent
  out : Outcome α

/-- The result of `execCommand`. -/
structure ExecRun where
  trace : List Event
  out : Outcome Unit

/-- The result of `handle_connection`: its calls, the descriptor table it
leaves, and how it ended. -/
structure ConnRun where
  trace : List Event
  fds : FdTable
  out : Outcome Unit

/-- The result of the accept loop. -/
structure LoopRun where
  trace : List MainEvent
  fds : FdTable
  out : Outcome Unit

/-- What the environment does while one connection is handled. -/
structure ConnWorld where
  /-- The result of the single `read`. -/
  read : ReadResult
  /-- The value of `getenv("PATH")`. -/
  path : Option CString
  /-- Whether `access(path, X_OK)` returns 0. -/
  access : CString → Bool
  /-- The result of `fork()` in the parent: the pid of the child, or failure. -/
  fork : Option Nat
  /-- Whether the peer of a socket on descriptor 1 has gone when
  `socket_accept_connection` prints its line. -/
  accept_sigpipe : Bool
  /-- Whether the peer of a socket on descriptor 1 has gone when
  `handle_connection` prints its line about the read. -/
  message_sigpipe : Bool
  /-- Whether the peer of a socket on descriptor 1 has gone when `execCommand`
  prints the status of the child. -/
  report_sigpipe : Bool

/-- What the environment does during a run of `main`. -/
structure World where
  /-- The value `strtoumax` leaves in `errno` when it converts nothing
  (0 or `EINVAL`, as the C library chooses). -/
  noconv_errno : Nat
  /-- Whether `inet_pton(family, address, ...)` returns 1. -/
  inet_pton : Nat → CString → Bool
  /-- The descriptor `socket` returns, if any. -/
  socket : Option Nat
  /-- Whether `inet_ntop` succeeds. -/
  inet_ntop : Bool
  /-- Whether `bind` succeeds. -/
  bind : Bool
  /-- Whether `listen` succeeds. -/
  listen : Bool
  /-- Whether `sigaction` succeeds. -/
  sigaction : Bool
  /-- The result of the i-th call of `accept`. -/
  accept : Nat → AcceptResult
  /-- The number of reads of `exit_flag` that still see 0: the handler sets
  the flag between read number `signal - 1` and read number `signal`. -/
  signal : Nat
  /-- The environment of the connection returned by the i-th `accept`. -/
  conn : Nat → ConnWorld
  /-- Whether closing the server socket succeeds. -/
  close : Bool

/-! ## Argument handling -/

/-- The function `usage`: prints the message and the usage line, then `exit(exit_code)`. -/
def usage {α : Type} (program_name : Option CString) (exit_code : Nat) (message : String) :
    MainRun α :=
  ⟨[], .exit exit_code message⟩

/-- The function `parse_arguments`, with `argc` the length of `argv`. -/
def parse_arguments (argv : List CString) : MainRun (Option CString × Option CString) :=
  let argc : Int := argv.length
  if optind ≥ argc then
    usage argv[0]? EXIT_FAILURE "The ip address and port are required"
  else if optind + 1 ≥ argc then
    usage argv[0]? EXIT_FAILURE "The port is required"
  else if optind < argc - 3 then
    usage argv[0]? EXIT_FAILURE "Error: Too many arguments."
  else
    ⟨[], .ret (argv[1]?, argv[2]?)⟩

/-- The function `isspace` of `<ctype.h>` in the C locale. -/
def isspace (c : Char) : Bool :=
  c = ' ' || c = '\t' || c = '\n' || c = '\x0b' || c = '\x0c' || c = '\r'

/-- The function `isdigit` of `<ctype.h>`. -/
def isdigit (c : Char) : Bool :=
  '0'.toNat ≤ c.toNat && c.toNat ≤ '9'.toNat

/-- The value of a string of decimal digits. -/
def decimal (digits : CString) : Nat :=
  digits.foldl (fun acc c => acc * BASE_TEN + (c.toNat - '0'.toNat)) 0

/-- What `strtoumax` hands back: the converted value, the rest of the string
at `*endptr`, and the value of `errno`. -/
structure Converted where
  value : Nat
  endptr : CString
  errno : Nat
deriving DecidableEq

/-- The function `strtoumax(str, &endptr, 10)` of `<inttypes.h>`, after
`errno = 0`, as the C standard describes it: white space is skipped, one sign
is accepted, then the digits are converted. Without digits nothing is
converted and `endptr` is `str`. A value above `UINTMAX_MAX` gives
`UINTMAX_MAX` and `ERANGE`; a minus sign negates in `uintmax_t`. -/
def strtoumax (noconv_errno : Nat) (str : CString) : Converted :=
  let s := str.dropWhile isspace
  let negative := s.head? = some '-'
  let s := if s.head? = some '-' ∨ s.head? = some '+' then s.tail else s
  let digits := s.takeWhile isdigit
  if digits = [] then ⟨0, str, noconv_errno⟩
  else if decimal digits > UINTMAX_MAX then ⟨UINTMAX_MAX, s.dropWhile isdigit, ERANGE⟩
  else if negative then
    ⟨(UINTMAX_MAX + 1 - decimal digits) % (UINTMAX_MAX + 1), s.dropWhile isdigit, 0⟩
  else ⟨decimal digits, s.dropWhile isdigit, 0⟩

/-- The function `parse_in_port_t`. -/
def parse_in_port_t (noconv_errno : Nat) (binary_name : Option CString) (str : CString) :
    MainRun Nat :=
  let r := strtoumax noconv_errno str
  if r.errno ≠ 0 then
    ⟨[], .exit EXIT_FAILURE "Error parsing in_port_t"⟩
  else if r.endptr ≠ [] then
    usage binary_name EXIT_FAILURE "Invalid characters in input."
  else if r.value > UINT16_MAX then
    usage binary_name EXIT_FAILURE "in_port_t value out of range."
  else
    ⟨[], .ret (r.value % (UINT16_MAX + 1))⟩

/-- The function `handle_arguments`. -/
def handle_arguments (noconv_errno : Nat) (binary_name ip_address port_str : Option CString) :
    MainRun Nat :=
  match ip_address, port_str with
  | none, _ => usage binary_name EXIT_FAILURE "The ip address is required."
  | some _, none => usage binary_name EXIT_FAILURE "The port is required."
  | some _, some port => parse_in_port_t noconv_errno binary_name port

/-! ## Socket set-up -/

/-- The function `convert_address`: the address family of the address, or exit. -/
def convert_address (w : World) (address : CString) : MainRun Nat :=
  if w.inet_pton AF_INET address then ⟨[], .ret AF_INET⟩
  else if w.inet_pton AF_INET6 address then ⟨[], .ret AF_INET6⟩
  else ⟨[], .exit EXIT_FAILURE "not an IPv4 or an IPv6 address"⟩

/-- The function `socket_create`. -/
def socket_create (w : World) : MainRun Nat :=
  match w.socket with
  | none => ⟨[.socket none], .exit EXIT_FAILURE "Socket creation failed"⟩
  | some sockfd => ⟨[.socket (some sockfd)], .ret sockfd⟩

/-- The function `socket_bind`. The two lines it prints go to the standard
output the process started with. -/
def socket_bind (w : World) (sockfd family port : Nat) : MainRun Unit :=
  if family = AF_INET ∨ family = AF_INET6 then
    if w.inet_ntop = false then ⟨[], .exit EXIT_FAILURE "inet_ntop"⟩
    else if w.bind = false then
      ⟨[.bind sockfd port false], .exit EXIT_FAILURE "Binding failed"⟩
    else ⟨[.bind sockfd port true], .ret ()⟩
  else
    ⟨[], .exit EXIT_FAILURE "Internal error: addr->ss_family must be AF_INET or AF_INET6"⟩

/-- The function `start_listening`. The line it prints goes to the standard
output the process started with. -/
def start_listening (w : World) (server_fd : Nat) : MainRun Unit :=
  if w.listen = false then
    ⟨[.listen server_fd false, .close server_fd], .exit EXIT_FAILURE "listen failed"⟩
  else ⟨[.listen server_fd true], .ret ()⟩

/-- The function `setup_signal_handler`. -/
def setup_signal_handler (w : World) : MainRun Unit :=
  if w.sigaction = false then ⟨[.sigaction false], .exit EXIT_FAILURE "sigaction"⟩
  else ⟨[.sigaction true], .ret ()⟩

/-! ## Tokenizer and resolver -/

/-- The function `strtok_r(s, delim, &saveptr)` of `<string.h>`, on the string
that is still to be scanned: leading delimiters are skipped; if nothing is left the result is
`NULL`; otherwise the token runs up to the next delimiter, which is overwritten
by NUL, and `saveptr` is what follows it. -/
def strtok_r (delim : List Char) (s : CString) : Option (CString × CString) :=
  let start := s.dropWhile (fun c => decide (c ∈ delim))
  if start = [] then none
  else
    let token := start.takeWhile (fun c => !decide (c ∈ delim))
    let stop := start.dropWhile (fun c => !decide (c ∈ delim))
    some (token, stop.tail)

/-- What `parseCommand` leaves behind: the cells of `tokens[]` it has written,
cell `i` at position `i`, and `*token_count`. -/
structure Parsed where
  tokens : List (Option CString)
  token_count : Nat
deriving DecidableEq

/-- The loop of `parseCommand`. Each round stores a copy of the token in the
next free cell, `tokens[(*token_count)++] = strdup(token)`; when `strtok_r`
returns `NULL` the marker is stored, `tokens[*token_count] = NULL`. -/
def parseLoop : Nat → CString → List (Option CString) → Nat → Option Parsed
  | 0, _, _, _ => none
  | fuel + 1, saveptr, tokens, token_count =>
    match strtok_r [' '] saveptr with
    | none => some ⟨tokens ++ [none], token_count⟩
    | some (token, saveptr) =>
      parseLoop fuel saveptr (tokens ++ [some token]) (token_count + 1)

/-- The function `parseCommand`. -/
def parseCommand (command : CString) : Option Parsed :=
  parseLoop (command.length + 1) command [] 0

/-- The function `snprintf(buffer, size, ...)`: at most `size - 1` characters are kept. -/
def snprintf (size : Nat) (text : CString) : CString :=
  text.take (size - 1)

/-- The loop of `findBinaryInPath` over the directories of `path_copy`. -/
def findLoop (access : CString → Bool) (command : CString) :
    Nat → CString → Option (Option CString)
  | 0, _ => none
  | fuel + 1, saveptr =>
    match strtok_r [':'] saveptr with
    | none => some none
    | some (dir, saveptr) =>
      let binary_path := snprintf SIZE (dir ++ '/' :: command)
      if access binary_path then some (some binary_path)
      else findLoop access command fuel saveptr

/-- The function `findBinaryInPath`: `some none` is the return value `NULL`. -/
def findBinaryInPath (path : Option CString) (access : CString → Bool)
    (command : CString) : Option (Option CString) :=
  match path with
  | none => some none
  | some path => findLoop access command (path.length + 1) path

/-- Whether a line printed by `printf` kills the process: the write goes to
descriptor 1, and when that is a socket whose peer has gone it raises
`SIGPIPE`. A terminal, and a closed descriptor, raise no signal. -/
def printf_killed (fds : FdTable) (peer_gone : Bool) : Bool :=
  match fds STDOUT_FILENO with
  | none => false
  | some .terminal => false
  | some _ => peer_gone

/-- The function `execCommand`, in the server process, with `fds` the
descriptor table when it is called. The array `tokens` has `HUNDRED` cells:
when `parseCommand` has written more, the run is undefined from there. After a
successful `fork` the parent waits for the child, prints its status on the
standard output and returns. The first cell of `tokens[]` holds a token
whenever `token_count` is not 0; a run that would read it otherwise is
undefined. -/
def execCommand (w : ConnWorld) (fds : FdTable) (command : CString) : ExecRun :=
  match parseCommand command with
  | none => ⟨[], .fuel⟩
  | some parsed =>
    if HUNDRED < parsed.tokens.length then ⟨[], .undefined⟩
    else if parsed.token_count = 0 then ⟨[], .exit EXIT_FAILURE "No command provided."⟩
    else
      match parsed.tokens.head? with
      | some (some name) =>
        match findBinaryInPath w.path w.access name with
        | none => ⟨[], .fuel⟩
        | some none =>
          ⟨[.findBinaryInPath name none], .exit EXIT_FAILURE "Command not found"⟩
        | some (some binary_path) =>
          match w.fork with
          | none =>
            ⟨[.findBinaryInPath name (some binary_path), .fork none],
              .exit EXIT_FAILURE "Fork failed"⟩
          | some child_pid =>
            ⟨[.findBinaryInPath name (some binary_path), .fork (some child_pid),
              .waitpid child_pid, .printf (fds STDOUT_FILENO)],
              if printf_killed fds w.report_sigpipe then .killed SIGPIPE else .ret ()⟩
      | _ => ⟨[], .undefined⟩

/-! ## Connection handling -/

/-- The return value of `read(client_sockfd, message, sizeof(message))`. -/
def ReadResult.received : ReadResult → Int
  | .data bytes => (min bytes.length BUFFER : Nat)
  | .error => -1

/-- The bytes `read` has put at the start of the zeroed `message`. -/
def ReadResult.message : ReadResult → List Char
  | .data bytes => bytes.take BUFFER
  | .error => []

/-- The C string that starts a buffer whose unused part is zero. -/
def cstr (buffer : List Char) : CString :=
  buffer.takeWhile (fun c => c ≠ '\x00')

/-- The function `dup2(oldfd, newfd)`: fails when `oldfd` is not open,
otherwise `newfd` refers to what `oldfd` refers to. -/
def dup2 (fds : FdTable) (oldfd newfd : Nat) : Option FdTable :=
  match fds oldfd with
  | none => none
  | some file => some (Function.update fds newfd (some file))

/-- The function `close(fd)`: the descriptor refers to nothing afterwards. -/
def close (fds : FdTable) (fd : Nat) : FdTable :=
  Function.update fds fd none

/-- The second half of `handle_connection`, from `dup2` to `close`, after the
calls `before`. The command handed to `execCommand` is the C string at the
start of `message`: the bytes read, up to the first NUL. -/
def dispatch (w : ConnWorld) (fds : FdTable) (client_sockfd : Nat) (before : List Event) :
    ConnRun :=
  match dup2 fds client_sockfd STDOUT_FILENO with
  | none =>
    ⟨before ++ [.dup2 client_sockfd STDOUT_FILENO false], fds, .exit EXIT_FAILURE "Missing"⟩
  | some fds =>
    let run := execCommand w fds (cstr w.read.message)
    let calls := before ++ [.dup2 client_sockfd STDOUT_FILENO true] ++ run.trace
    match run.out with
    | .ret _ => ⟨calls ++ [.close client_sockfd], close fds client_sockfd, .ret ()⟩
    | .exit code diagnostic => ⟨calls, fds, .exit code diagnostic⟩
    | .killed signal => ⟨calls, fds, .killed signal⟩
    | .undefined => ⟨calls, fds, .undefined⟩
    | .fuel => ⟨calls, fds, .fuel⟩

/-- The function `handle_connection`. After a read of zero bytes it prints a
line; after a failed read it prints a diagnostic; after any other read it
stores the terminator at `message[received]`, which is past the end of the
`BUFFER` bytes of `message` when the read has filled them, and prints the
message. Then it goes on to `dup2` in every case. -/
def handle_connection (w : ConnWorld) (fds : FdTable) (client_sockfd : Nat) : ConnRun :=
  let received := w.read.received
  if received = 0 then
    if printf_killed fds w.message_sigpipe then
      ⟨[.read client_sockfd received, .printf (fds STDOUT_FILENO)], fds, .killed SIGPIPE⟩
    else
      dispatch w fds client_sockfd [.read client_sockfd received, .printf (fds STDOUT_FILENO)]
  else if received < 0 then
    dispatch w fds client_sockfd [.read client_sockfd received]
  else if BUFFER ≤ received.toNat then
    ⟨[.read client_sockfd received, .terminate received.toNat], fds, .undefined⟩
  else if printf_killed fds w.message_sigpipe then
    ⟨[.read client_sockfd received, .terminate received.toNat, .printf (fds STDOUT_FILENO)],
      fds, .killed SIGPIPE⟩
  else
    dispatch w fds client_sockfd
      [.read client_sockfd received, .terminate received.toNat, .printf (fds STDOUT_FILENO)]

/-! ## The accept loop and `main` -/

/-- The function `socket_accept_connection`, given the result of its `accept`
call and the descriptor table after it: for a connection it prints one line
on the standard output and returns the client descriptor; otherwise it
returns -1 (`none`). -/
def socket_accept_connection (fds : FdTable) (peer_gone : Bool) (result : AcceptResult) :
    Outcome (Option Nat) :=
  match result with
  | .connection client_fd =>
    if printf_killed fds peer_gone then .killed SIGPIPE else .ret (some client_fd)
  | .eintr => .ret none
  | .error => .ret none

/-- The descriptor table after `accept`: a returned descriptor refers to the
new connection, which is numbered by the call that returned it. -/
def accepted_fds (fds : FdTable) (call : Nat) (result : AcceptResult) : FdTable :=
  match result with
  | .connection client_fd => Function.update fds client_fd (some (.connection call))
  | .eintr => fds
  | .error => fds

/-- The `while(exit_flag == 0)` loop of `main`. `reads` counts the reads of
`exit_flag` made so far and `calls` the calls of `accept`; a read sees the flag
set when at least `w.signal` reads came before it. -/
def accept_loop (w : World) (sockfd : Nat) : Nat → Nat → Nat → FdTable → LoopRun
  | 0, _, _, fds => ⟨[], fds, .fuel⟩
  | fuel + 1, reads, calls, fds =>
    if w.signal ≤ reads then ⟨[.loopCheck true], fds, .ret ()⟩
    else
      let fds := accepted_fds fds calls (w.accept calls)
      match socket_accept_connection fds (w.conn calls).accept_sigpipe (w.accept calls) with
      | .ret none =>
        if w.signal ≤ reads + 1 then
          ⟨[.loopCheck false, .accept sockfd (w.accept calls), .breakCheck true], fds, .ret ()⟩
        else
          let rest := accept_loop w sockfd fuel (reads + 2) (calls + 1) fds
          ⟨.loopCheck false :: .accept sockfd (w.accept calls) :: .breakCheck false ::
            rest.trace, rest.fds, rest.out⟩
      | .ret (some client_sockfd) =>
        let run := handle_connection (w.conn calls) fds client_sockfd
        match run.out with
        | .ret _ =>
          let rest := accept_loop w sockfd fuel (reads + 1) (calls + 1) run.fds
          ⟨.loopCheck false :: .accept sockfd (w.accept calls) ::
            .handle_connection client_sockfd run.trace :: rest.trace, rest.fds, rest.out⟩
        | .exit code diagnostic =>
          ⟨[.loopCheck false, .accept sockfd (w.accept calls),
            .handle_connection client_sockfd run.trace], run.fds, .exit code diagnostic⟩
        | .killed signal =>
          ⟨[.loopCheck false, .accept sockfd (w.accept calls),
            .handle_connection client_sockfd run.trace], run.fds, .killed signal⟩
        | .undefined =>
          ⟨[.loopCheck false, .accept sockfd (w.accept calls),
            .handle_connection client_sockfd run.trace], run.fds, .undefined⟩
        | .fuel =>
          ⟨[.loopCheck false, .accept sockfd (w.accept calls),
            .handle_connection client_sockfd run.trace], run.fds, .fuel⟩
      | .exit code diagnostic =>
        ⟨[.loopCheck false, .accept sockfd (w.accept calls)], fds, .exit code diagnostic⟩
      | .killed signal =>
        ⟨[.loopCheck false, .accept sockfd (w.accept calls)], fds, .killed signal⟩
      | .undefined => ⟨[.loopCheck false, .accept sockfd (w.accept calls)], fds, .undefined⟩
      | .fuel => ⟨[.loopCheck false, .accept sockfd (w.accept calls)], fds, .fuel⟩

/-- The function `socket_close`. -/
def socket_close (w : World) (sockfd : Nat) : MainRun Unit :=
  if w.close = false then ⟨[.close sockfd], .exit EXIT_FAILURE "Error closing socket"⟩
  else ⟨[.close sockfd], .ret ()⟩

/-- The part of `main` that follows `setup_signal_handler`: the accept loop,
`socket_close(sockfd)` and `return EXIT_SUCCESS`. -/
def serve (w : World) (sockfd : Nat) (fds : FdTable) : MainRun Nat :=
  let run := accept_loop w sockfd (w.signal + 1) 0 0 fds
  match run.out with
  | .ret _ =>
    let closed := socket_close w sockfd
    match closed.out with
    | .ret _ => ⟨run.trace ++ closed.trace, .ret EXIT_SUCCESS⟩
    | .exit code diagnostic => ⟨run.trace ++ closed.trace, .exit code diagnostic⟩
    | .killed signal => ⟨run.trace ++ closed.trace, .killed signal⟩
    | .undefined => ⟨run.trace ++ closed.trace, .undefined⟩
    | .fuel => ⟨run.trace ++ closed.trace, .fuel⟩
  | .exit code diagnostic => ⟨run.trace, .exit code diagnostic⟩
  | .killed signal => ⟨run.trace, .killed signal⟩
  | .undefined => ⟨run.trace, .undefined⟩
  | .fuel => ⟨run.trace, .fuel⟩

/-- Sequencing of two steps of `main`: the second runs when the first returns. -/
def MainRun.andThen {α β : Type} (first : MainRun α) (next : α → MainRun β) : MainRun β :=
  match first.out with
  | .ret value => ⟨first.trace ++ (next value).trace, (next value).out⟩
  | .exit code diagnostic => ⟨first.trace, .exit code diagnostic⟩
  | .killed signal => ⟨first.trace, .killed signal⟩
  | .undefined => ⟨first.trace, .undefined⟩
  | .fuel => ⟨first.trace, .fuel⟩

/-- The descriptor table at process start: the three standard streams. -/
def initial_fds : FdTable := fun fd => if fd < 3 then some .terminal else none

/-- The part of `main` that comes before the loop, from `parse_arguments` to
`setup_signal_handler`; it returns the listening descriptor. -/
def start (w : World) (argv : List CString) : MainRun Nat :=
  (parse_arguments argv).andThen fun args =>
  (handle_arguments w.noconv_errno argv[0]? args.1 args.2).andThen fun port =>
  (convert_address w (args.1.getD [])).andThen fun family =>
  (socket_create w).andThen fun sockfd =>
  (socket_bind w sockfd family port).andThen fun _ =>
  (start_listening w sockfd).andThen fun _ =>
  (setup_signal_handler w).andThen fun _ =>
  ⟨[], .ret sockfd⟩

/-- The function `main`. -/
def main (w : World) (argv : List CString) : MainRun Nat :=
  (start w argv).andThen fun sockfd =>
  serve w sockfd (Function.update initial_fds sockfd (some .listening))

/-! ## Notions used in the statements -/

/-- The pieces of `s` between occurrences of the delimiter `d`, in order: the
maximal runs of characters other than `d`. They are the members of
`List.splitOn` that are not empty, so the empty string has no piece and a run
of delimiters separates two pieces like a single delimiter does. -/
def pieces (d : Char) (s : CString) : List CString :=
  (s.splitOn d).filter (fun piece => piece ≠ [])

/-- A port string that `strtoumax` converts in full: white space, at most one
sign, then at least one decimal digit. -/
def Numeral (s : CString) : Prop :=
  ∃ ws sg ds : CString, s = ws ++ sg ++ ds ∧ (∀ c ∈ ws, isspace c = true) ∧
    (sg = [] ∨ sg = ['+'] ∨ sg = ['-']) ∧ ds ≠ [] ∧ ∀ c ∈ ds, isdigit c = true

/-- A port string of that form whose value the port check refuses: above
`UINT16_MAX` without a minus sign; with a minus sign, a magnitude that is not 0
and whose negation in `uintmax_t` is above `UINT16_MAX`, or that overflows. -/
def OutOfRange (s : CString) : Prop :=
  ∃ ws sg ds : CString, s = ws ++ sg ++ ds ∧ (∀ c ∈ ws, isspace c = true) ∧ ds ≠ [] ∧
    (∀ c ∈ ds, isdigit c = true) ∧
    (((sg = [] ∨ sg = ['+']) ∧ UINT16_MAX < decimal ds) ∨
      (sg = ['-'] ∧ 0 < decimal ds ∧
        (decimal ds + UINT16_MAX < UINTMAX_MAX + 1 ∨ UINTMAX_MAX < decimal ds)))

/-- Whether an event is a `fork` that created a child process. -/
def Event.created_child : Event → Bool
  | .fork (some _) => true
  | _ => false

/-- Whether an event is a call of the resolver. -/
def Event.resolver_call : Event → Bool
  | .findBinaryInPath _ _ => true
  | _ => false

/-- The value of `exit_flag` an event has read, if it is a read of the flag. -/
def MainEvent.flag : MainEvent → Option Bool
  | .loopCheck exit_flag => some exit_flag
  | .breakCheck exit_flag => some exit_flag
  | _ => none

/-- Whether the event is a call of `close`. -/
def MainEvent.is_close : MainEvent → Bool
  | .close _ => true
  | _ => false

/-- A connection that sends `echo hi` while `/bin/echo` is executable. -/
def example_conn : ConnWorld :=
  ⟨.data "echo hi".toList, some "/usr/bin:/bin".toList,
    fun binary_path => decide (binary_path = "/bin/echo".toList), some 77, false, false, false⟩

/-- A connection that sends the name of a program found in no directory. -/
def missing_command_conn : ConnWorld :=
  ⟨.data "nonexistentbinary123".toList, some "/usr/bin:/bin".toList,
    fun binary_path => decide (binary_path = "/bin/echo".toList), some 77, false, false, false⟩

/-- A connection the peer closes without sending a byte. -/
def closed_conn : ConnWorld :=
  ⟨.data [], some "/usr/bin:/bin".toList,
    fun binary_path => decide (binary_path = "/bin/echo".toList), some 77, false, false, false⟩

/-- A message of exactly `BUFFER` bytes. -/
def full_buffer : List Char := List.replicate 1024 'x'

/-- A connection whose single `read` fills the whole buffer. -/
def full_buffer_conn : ConnWorld :=
  ⟨.data full_buffer, some "/usr/bin:/bin".toList,
    fun binary_path => decide (binary_path = "/bin/echo".toList), some 77, false, false, false⟩

/-- A command line of 100 one-letter words, 199 characters long. -/
def hundred_words : CString :=
  [' '].intercalate (List.replicate 100 ['a'])

/-- A directory name of 250 characters. -/
def long_directory : CString := '/' :: List.replicate 249 'd'

/-- An execute-permission check that passes for the file `program` in
`long_directory` only. -/
def only_program (binary_path : CString) : Bool :=
  decide (binary_path = long_directory ++ "/program".toList)

/-- A descriptor table with the listening socket at 3 and connection 0 at 4. -/
def example_fds : FdTable :=
  Function.update (Function.update initial_fds 3 (some .listening)) 4 (some (.connection 0))

/-- A run in which `accept` returns a connection, is interrupted once, returns
a second connection, and the signal arrives before the fifth read of the flag. -/
def example_world : World :=
  ⟨0, fun family _ => decide (family = AF_INET), some 3, true, true, true, true,
    fun i => if i = 1 then .eintr else .connection 4, 4, fun _ => example_conn, true⟩

/-- A connection like `example_conn` that is accepted when the peer of the
socket left on the standard output has gone. -/
def stale_conn : ConnWorld :=
  ⟨.data "echo hi".toList, some "/usr/bin:/bin".toList,
    fun binary_path => decide (binary_path = "/bin/echo".toList), some 77, true, true, false⟩

/-- The run of `example_world` in which the first client has gone when the
second connection is accepted. -/
def stale_world : World :=
  ⟨0, fun family _ => decide (family = AF_INET), some 3, true, true, true, true,
    fun i => if i = 1 then .eintr else .connection 4, 4,
    fun i => if i = 0 then example_conn else stale_conn, true⟩

/-- A command line for `example_world`. -/
def example_argv : List CString :=
  ["server".toList, "127.0.0.1".toList, "8080".toList]

/-! ## The tokenizer -/

/-- One step of `List.splitOn`: the first piece and the rest of the string. -/
theorem splitOn_unfold (d : Char) (s : CString) :
    s.splitOn d = s.takeWhile (fun c => !decide (c = d)) ::
      (if s.dropWhile (fun c => !decide (c = d)) = [] then []
       else ((s.dropWhile (fun c => !decide (c = d))).tail).splitOn d) := by
  induction s with
  | nil => simp
  | cons c t ih =>
    rw [List.splitOn, List.splitOnP_cons]
    by_cases h : c = d
    · subst h
      simp [List.splitOn]
    · have h1 : (c == d) = false := by simpa using h
      rw [← List.splitOn, ih]
      simp [h1, h, List.modifyHead]

/-- No member of `List.splitOn` contains the delimiter. -/
theorem splitOn_mem (d : Char) (s : CString) : ∀ piece ∈ s.splitOn d, d ∉ piece := by
  induction s with
  | nil => simp
  | cons c t ih =>
    rw [List.splitOn, List.splitOnP_cons, ← List.splitOn]
    by_cases h : c = d
    · subst h
      simpa using ih
    · have h1 : (c == d) = false := by simpa using h
      simp only [h1, Bool.false_eq_true, if_false]
      cases hsp : t.splitOn d with
      | nil => simp
      | cons hd tl =>
        rw [hsp] at ih
        intro piece hp
        simp only [List.modifyHead, List.mem_cons] at hp
        rcases hp with rfl | hp
        · have := ih hd (by simp)
          simp only [List.mem_cons, not_or]
          exact ⟨fun e => h e.symm, this⟩
        · exact ih piece (by simp [hp])

/-- A piece is not empty and does not contain the delimiter. -/
theorem pieces_mem (d : Char) (s token : CString) (h : token ∈ pieces d s) :
    token ≠ [] ∧ d ∉ token := by
  simp only [pieces, List.mem_filter, decide_eq_true_eq] at h
  exact ⟨h.2, splitOn_mem d s token h.1⟩

/-- When `strtok_r` returns `NULL` the string has no piece. -/
theorem strtok_r_none (d : Char) (s : CString) (h : strtok_r [d] s = none) :
    pieces d s = [] := by
  induction s with
  | nil => simp [pieces]
  | cons c t ih =>
    by_cases hc : c = d
    · subst hc
      have : strtok_r [c] t = none := by simpa [strtok_r] using h
      have := ih this
      simpa [pieces, List.splitOn, List.splitOnP_cons] using this
    · simp [strtok_r, hc] at h

/-- The token `strtok_r` returns is the first piece, what it leaves holds the
other pieces, and it is shorter than the string scanned. -/
theorem strtok_r_some (d : Char) (s token saveptr : CString)
    (h : strtok_r [d] s = some (token, saveptr)) :
    pieces d s = token :: pieces d saveptr ∧ saveptr.length < s.length := by
  induction s with
  | nil => simp [strtok_r] at h
  | cons c t ih =>
    by_cases hc : c = d
    · subst hc
      have : strtok_r [c] t = some (token, saveptr) := by simpa [strtok_r] using h
      obtain ⟨h1, h2⟩ := ih this
      refine ⟨?_, by simp; omega⟩
      simpa [pieces, List.splitOn, List.splitOnP_cons] using h1
    · simp [strtok_r, hc] at h
      obtain ⟨h1, h2⟩ := h
      subst h1 h2
      constructor
      · rw [pieces, splitOn_unfold]
        by_cases he : List.dropWhile (fun c => !decide (c = d)) t = []
        · simp [hc, he, pieces]
        · simp [hc, he, pieces]
      · have := (List.dropWhile_sublist (fun c => !decide (c = d)) (l := t)).length_le
        simp only [List.length_tail, List.length_cons]
        omega

/-- With more fuel than characters the loop of `parseCommand` stores the pieces
and then the marker. -/
theorem parseLoop_eq (fuel : Nat) (s : CString) (tokens : List (Option CString)) (n : Nat)
    (h : s.length < fuel) :
    parseLoop fuel s tokens n =
      some ⟨tokens ++ (pieces ' ' s).map some ++ [none], n + (pieces ' ' s).length⟩ := by
  induction fuel generalizing s tokens n with
  | zero => omega
  | succ fuel ih =>
    rw [parseLoop]
    cases hs : strtok_r [' '] s with
    | none => simp [strtok_r_none _ _ hs]
    | some r =>
      obtain ⟨token, saveptr⟩ := r
      obtain ⟨h1, h2⟩ := strtok_r_some _ _ _ _ hs
      simp only
      rw [ih saveptr _ _ (by omega), h1]
      simp [Nat.add_assoc, Nat.add_comm]

/-- The result of `parseCommand` in closed form. -/
theorem parseCommand_eq (command : CString) :
    parseCommand command =
      some ⟨(pieces ' ' command).map some ++ [none], (pieces ' ' command).length⟩ := by
  rw [parseCommand, parseLoop_eq _ _ _ _ (by omega)]
  simp

/-- C1. For every command string, `parseCommand` returns (its fuel is enough),
cells `0 .. token_count - 1` of `tokens[]` hold, in order, the pieces of the
string between space characters, cell `token_count` holds the null marker, and
`token_count` is the number of pieces. Only the space separates: a piece is
never empty and never contains a space, and a tab or a newline stays inside its
token. `echo hello world` gives `echo`, `hello`, `world` and the marker; the
empty string gives zero tokens and the marker. -/
theorem parseCommand_splits_on_space (command : CString) :
    parseCommand command =
        some ⟨(pieces ' ' command).map some ++ [none], (pieces ' ' command).length⟩ ∧
      (∀ token ∈ pieces ' ' command, token ≠ [] ∧ ' ' ∉ token) ∧
      parseCommand "echo hello world".toList =
        some ⟨[some "echo".toList, some "hello".toList, some "world".toList, none], 3⟩ ∧
      parseCommand "tab\there new\nline".toList =
        some ⟨[some "tab\there".toList, some "new\nline".toList, none], 2⟩ ∧
      parseCommand [] = some ⟨[none], 0⟩ := by
  refine ⟨?_, pieces_mem _ _, by decide, by decide, by decide⟩
  rw [parseCommand, parseLoop_eq _ _ _ _ (by omega)]
  simp

set_option maxRecDepth 1000000 in
/-- C10 (the code breaks the claim). The command line `hundred_words` has 199
characters, within the 1023 that `handle_connection` can pass on (a read of
these 199 bytes hands exactly this string to `execCommand`), and
`parseCommand` finds 100 tokens in it: it writes cells 0 to 99 and then the
null marker into cell 100, one past the last cell of `char *tokens[HUNDRED]`.
So `token_count + 1 <= 100` fails, and the run of `execCommand` has no defined
behaviour. -/
theorem parseCommand_overflows_tokens :
    hundred_words.length ≤ BUFFER - 1 ∧
      cstr (ReadResult.data hundred_words).message = hundred_words ∧
      (parseCommand hundred_words).map (fun parsed => parsed.token_count) = some 100 ∧
      (parseCommand hundred_words).map (fun parsed => parsed.tokens.length) = some 101 ∧
      (parseCommand hundred_words).map (fun parsed => parsed.tokens[100]?) =
        some (some none) ∧
      ¬ (100 + 1 ≤ HUNDRED) ∧
      (execCommand example_conn example_fds hundred_words).out = .undefined := by
  decide

/-! ## The resolver -/

/-- With more fuel than characters the loop of `findBinaryInPath` returns the
first candidate that passes the check. -/
theorem findLoop_eq (access : CString → Bool) (command : CString) (fuel : Nat) (s : CString)
    (h : s.length < fuel) :
    findLoop access command fuel s =
      some (((pieces ':' s).map fun dir => snprintf SIZE (dir ++ '/' :: command)).find?
        access) := by
  induction fuel generalizing s with
  | zero => omega
  | succ fuel ih =>
    rw [findLoop]
    cases hs : strtok_r [':'] s with
    | none => simp [strtok_r_none _ _ hs]
    | some r =>
      obtain ⟨dir, saveptr⟩ := r
      obtain ⟨h1, h2⟩ := strtok_r_some _ _ _ _ hs
      simp only
      rw [ih saveptr (by omega), h1]
      by_cases ha : access (snprintf SIZE (dir ++ '/' :: command)) = true
      · simp [ha]
      · simp [ha]

/-- C2 (amended). For every value of the search-path variable, every program
name and every execute-permission check such that each candidate
`directory/program_name` fits the 256-byte buffer `binary_path` (at most 255
characters), `findBinaryInPath` returns `directory + "/" + program_name` for
the first directory, in the order of the colon-separated list, whose candidate
passes the check, and returns `NULL` when the variable is absent or no
candidate passes. The directories are the entries of the list that are not
empty. -/
theorem findBinaryInPath_first_match (path : Option CString) (access : CString → Bool)
    (command : CString)
    (hfit : ∀ p, path = some p → ∀ dir ∈ pieces ':' p,
      dir.length + 1 + command.length < SIZE) :
    findBinaryInPath path access command =
      some (match path with
        | none => none
        | some p => ((pieces ':' p).map fun dir => dir ++ '/' :: command).find? access) := by
  cases path with
  | none => rfl
  | some p =>
    simp only [findBinaryInPath]
    rw [findLoop_eq _ _ _ _ (by omega)]
    congr 2
    apply List.map_congr_left
    intro dir hdir
    have := hfit p rfl dir hdir
    simp only [snprintf]
    apply List.take_of_length_le
    simp [SIZE] at this ⊢
    omega

/-- C2 (witness). With `/usr/bin::/bin:/opt/bin` and `ls` executable in `/bin`
and in `/opt/bin` the result is `/bin/ls`; with no executable candidate, and
with no search-path variable, the result is `NULL`. -/
theorem findBinaryInPath_first_match_witness :
    findBinaryInPath (some "/usr/bin::/bin:/opt/bin".toList)
        (fun p => decide (p = "/bin/ls".toList ∨ p = "/opt/bin/ls".toList)) "ls".toList =
      some (some "/bin/ls".toList) ∧
    findBinaryInPath (some "/usr/bin:/bin".toList) (fun _ => false) "ls".toList = some none ∧
    findBinaryInPath none (fun _ => true) "ls".toList = some none := by
  refine ⟨?_, ?_, ?_⟩
  · rw [findBinaryInPath_first_match _ _ _ (by decide)]
    decide
  · rw [findBinaryInPath_first_match _ _ _ (by decide)]
    decide
  · rw [findBinaryInPath_first_match _ _ _ (by simp)]

set_option maxRecDepth 100000 in
/-- C2 (counterexample). The search path is the single directory
`long_directory`, of 250 characters, and `long_directory/program` passes the
execute-permission check. The claim promises that path; `findBinaryInPath`
returns `NULL`, because `snprintf` cuts the candidate of 258 characters to the
255 characters of `long_directory/prog` before it is checked. Also, an empty
entry of the list is skipped and not tried as a directory: with the path
`:/bin` the candidate `/ls` of the empty first entry is never checked. -/
theorem findBinaryInPath_long_directory :
    pieces ':' long_directory = [long_directory] ∧
      only_program (long_directory ++ '/' :: "program".toList) = true ∧
      snprintf SIZE (long_directory ++ '/' :: "program".toList) =
        long_directory ++ '/' :: "prog".toList ∧
      findBinaryInPath (some long_directory) only_program "program".toList = some none ∧
      findBinaryInPath (some ":/bin".toList) (fun p => decide (p = [] ++ '/' :: "ls".toList))
        "ls".toList = some none := by
  decide

/-! ## Argument handling -/

/-- A digit is not white space. -/
theorem isdigit_not_isspace (c : Char) (h : isdigit c = true) : isspace c = false := by
  by_contra hs
  simp only [Bool.not_eq_false, isspace, Bool.or_eq_true, decide_eq_true_eq] at hs
  rcases hs with ((((rfl | rfl) | rfl) | rfl) | rfl) | rfl <;> revert h <;> decide

/-- A digit is not a sign. -/
theorem isdigit_not_sign (c : Char) (h : isdigit c = true) : c ≠ '-' ∧ c ≠ '+' := by
  constructor <;> rintro rfl <;> revert h <;> decide

/-- What `strtoumax` returns for white space, a sign and digits. -/
theorem strtoumax_numeral (e : Nat) (ws sg ds : CString) (hws : ∀ c ∈ ws, isspace c = true)
    (hsg : sg = [] ∨ sg = ['+'] ∨ sg = ['-']) (hds : ds ≠ [])
    (hd : ∀ c ∈ ds, isdigit c = true) :
    strtoumax e (ws ++ sg ++ ds) =
      if decimal ds > UINTMAX_MAX then ⟨UINTMAX_MAX, [], ERANGE⟩
      else if sg = ['-'] then ⟨(UINTMAX_MAX + 1 - decimal ds) % (UINTMAX_MAX + 1), [], 0⟩
      else ⟨decimal ds, [], 0⟩ := by
  obtain ⟨c, t, rfl⟩ := List.exists_cons_of_ne_nil hds
  have hc : isdigit c = true := hd c (by simp)
  have hcs := isdigit_not_isspace c hc
  obtain ⟨hc1, hc2⟩ := isdigit_not_sign c hc
  have htake : List.takeWhile isdigit (c :: t) = c :: t := by
    rw [List.takeWhile_eq_self_iff]; exact hd
  have hdrop : List.dropWhile isdigit (c :: t) = [] := by
    rw [List.dropWhile_eq_nil_iff]; exact hd
  have hskip : ∀ x : CString, (∀ h : x ≠ [], isspace (x.head h) = false) →
      List.dropWhile isspace (ws ++ x) = x := by
    intro x hx
    rw [List.dropWhile_append_of_pos hws]
    cases x with
    | nil => rfl
    | cons a l =>
      have := hx (by simp)
      simp only [List.head_cons] at this
      simp [List.dropWhile_cons, this]
  rcases hsg with rfl | rfl | rfl
  · have h1 : List.dropWhile isspace (ws ++ [] ++ c :: t) = c :: t := by
      simpa using hskip (c :: t) (by simpa using hcs)
    unfold strtoumax
    simp only [h1, List.head?_cons, Option.some.injEq, hc1, hc2, or_self, if_false, htake,
      hdrop]
    simp
  · have h1 : List.dropWhile isspace (ws ++ ['+'] ++ c :: t) = '+' :: c :: t := by
      simpa using hskip ('+' :: c :: t) (by simp; decide)
    unfold strtoumax
    simp only [h1, List.head?_cons, List.tail_cons, htake, hdrop]
    simp [hc, htake, hdrop]
  · have h1 : List.dropWhile isspace (ws ++ ['-'] ++ c :: t) = '-' :: c :: t := by
      simpa using hskip ('-' :: c :: t) (by simp; decide)
    unfold strtoumax
    simp only [h1, List.head?_cons, List.tail_cons, htake, hdrop]
    simp [hc, htake, hdrop]

/-- A string is a numeral when, after its white space and sign, it has a digit
and nothing but digits. -/
theorem numeral_of_parts (s sg ds : CString) (hs : List.dropWhile isspace s = sg ++ ds)
    (hsg : sg = [] ∨ sg = ['+'] ∨ sg = ['-']) (hne : List.takeWhile isdigit ds ≠ [])
    (hall : List.dropWhile isdigit ds = []) : Numeral s := by
  refine ⟨List.takeWhile isspace s, sg, ds, ?_, ?_, hsg, ?_, ?_⟩
  · rw [List.append_assoc, ← hs, List.takeWhile_append_dropWhile]
  · intro c hc
    exact (List.mem_takeWhile_imp hc)
  · rintro rfl
    simp at hne
  · rwa [List.dropWhile_eq_nil_iff] at hall

/-- When `strtoumax` leaves nothing at `*endptr` the string is empty or a
numeral. -/
theorem strtoumax_endptr_nil (e : Nat) (s : CString) (h : (strtoumax e s).endptr = []) :
    s = [] ∨ Numeral s := by
  have hshape : ∃ sg s2, (if (List.dropWhile isspace s).head? = some '-' ∨
          (List.dropWhile isspace s).head? = some '+'
        then (List.dropWhile isspace s).tail else List.dropWhile isspace s) = s2 ∧
      List.dropWhile isspace s = sg ++ s2 ∧ (sg = [] ∨ sg = ['+'] ∨ sg = ['-']) := by
    cases hd : List.dropWhile isspace s with
    | nil => exact ⟨[], [], by simp⟩
    | cons c t =>
      by_cases h1 : c = '-'
      · exact ⟨['-'], t, by simp [h1]⟩
      · by_cases h2 : c = '+'
        · exact ⟨['+'], t, by simp [h2]⟩
        · exact ⟨[], c :: t, by simp [h1, h2]⟩
  obtain ⟨sg, s2, hdef, hs, hsg⟩ := hshape
  unfold strtoumax at h
  simp only [hdef] at h
  split_ifs at h with hnil hbig hneg
  · exact .inl h
  · exact .inr (numeral_of_parts s sg _ hs hsg hnil h)
  · exact .inr (numeral_of_parts s sg _ hs hsg hnil h)
  · exact .inr (numeral_of_parts s sg _ hs hsg hnil h)

/-- For a numeral `strtoumax` leaves nothing at `*endptr`. -/
theorem numeral_endptr (e : Nat) (s : CString) (h : Numeral s) :
    (strtoumax e s).endptr = [] := by
  obtain ⟨ws, sg, ds, rfl, hws, hsg, hds, hd⟩ := h
  rw [strtoumax_numeral e ws sg ds hws hsg hds hd]
  split_ifs <;> rfl

/-- The function `parse_in_port_t` exits with `EXIT_FAILURE` unless the
conversion sets no error, leaves nothing unread and gives at most `UINT16_MAX`. -/
theorem parse_in_port_t_out (e : Nat) (b : Option CString) (s : CString) :
    (∃ msg, (parse_in_port_t e b s).out = .exit EXIT_FAILURE msg) ∨
      ((strtoumax e s).errno = 0 ∧ (strtoumax e s).endptr = [] ∧
        (strtoumax e s).value ≤ UINT16_MAX) := by
  unfold parse_in_port_t
  simp only [usage]
  split_ifs with h1 h2 h3
  · exact .inl ⟨_, rfl⟩
  · exact .inl ⟨_, rfl⟩
  · exact .inl ⟨_, rfl⟩
  · right
    refine ⟨by simpa using h1, by simpa using h2, by omega⟩

/-- The port strings that `parse_in_port_t` refuses. -/
theorem parse_in_port_t_exits (e : Nat) (b : Option CString) (port : CString)
    (h : ((∃ c ∈ port, isdigit c = false) ∧ ¬ Numeral port) ∨ OutOfRange port) :
    ∃ msg, (parse_in_port_t e b port).out = .exit EXIT_FAILURE msg := by
  rcases parse_in_port_t_out e b port with hx | ⟨h1, h2, h3⟩
  · exact hx
  · exfalso
    rcases h with ⟨⟨c, hc, _⟩, hn⟩ | ⟨ws, sg, ds, rfl, hws, hds, hd, hr⟩
    · rcases strtoumax_endptr_nil e port h2 with rfl | hnum
      · simp at hc
      · exact hn hnum
    · have hsg : sg = [] ∨ sg = ['+'] ∨ sg = ['-'] := by
        rcases hr with ⟨h | h, _⟩ | ⟨h, _⟩ <;> simp [h]
      rw [strtoumax_numeral e ws sg ds hws hsg hds hd] at h1 h3
      rcases hr with ⟨hs, hbig⟩ | ⟨hs, hpos, hbig⟩
      · have hne : sg ≠ ['-'] := by rcases hs with h | h <;> simp [h]
        split_ifs at h1 h3 with hb
        · simp [ERANGE] at h1
        · simp only at h3
          omega
      · split_ifs at h1 h3 with hb
        · simp [ERANGE] at h1
        · simp only [UINTMAX_MAX, UINT16_MAX] at h3 hbig hb hpos
          omega

/-- With two arguments after the program name, an exit in `parse_in_port_t`
ends `main` before any system call. -/
theorem main_three_args (w : World) (prog ip port : CString) (msg : String)
    (h : (parse_in_port_t w.noconv_errno (some prog) port).out = .exit EXIT_FAILURE msg) :
    (main w [prog, ip, port]).out = .exit EXIT_FAILURE msg ∧
      (main w [prog, ip, port]).trace = [] := by
  have h0 : (parse_arguments [prog, ip, port]) = ⟨[], .ret (some ip, some port)⟩ := by
    simp [parse_arguments, optind]
  have h1 : (parse_in_port_t w.noconv_errno (some prog) port).trace = [] := by
    unfold parse_in_port_t usage
    simp only
    split_ifs <;> rfl
  unfold main start
  simp only [MainRun.andThen, h0, handle_arguments, List.getElem?_cons_zero, h, h1]
  simp

/-- C3 (amended). For every port string that contains a non-digit character
and is not of the form white space, at most one sign, digits, and for every
port string of that form whose value the range check refuses (above 65535, or
a negative value whose negation in `uintmax_t` is above 65535 or overflows),
`parse_in_port_t`, called through `handle_arguments`, terminates the process
with the non-zero status `EXIT_FAILURE`, and `main` ends with that status
without any system call: `socket_create` and `socket_bind` are not reached. -/
theorem parse_in_port_t_rejects (w : World) (prog ip port : CString)
    (h : ((∃ c ∈ port, isdigit c = false) ∧ ¬ Numeral port) ∨ OutOfRange port) :
    ∃ msg, (parse_in_port_t w.noconv_errno (some prog) port).out = .exit EXIT_FAILURE msg ∧
      (handle_arguments w.noconv_errno (some prog) (some ip) (some port)).out =
        .exit EXIT_FAILURE msg ∧
      (main w [prog, ip, port]).out = .exit EXIT_FAILURE msg ∧
      (main w [prog, ip, port]).trace = [] ∧ EXIT_FAILURE ≠ 0 := by
  obtain ⟨msg, hmsg⟩ := parse_in_port_t_exits w.noconv_errno (some prog) port h
  exact ⟨msg, hmsg, hmsg, (main_three_args w prog ip port msg hmsg).1,
    (main_three_args w prog ip port msg hmsg).2, by decide⟩

/-- C3 (witness). The port strings `80a`, which has a letter after the digits,
and `65536`, which is out of range, end `main` with `EXIT_FAILURE` before any
system call. -/
theorem parse_in_port_t_rejects_witness :
    (∃ msg, (parse_in_port_t example_world.noconv_errno (some "server".toList)
          "80a".toList).out = .exit EXIT_FAILURE msg ∧
      (handle_arguments example_world.noconv_errno (some "server".toList)
        (some "127.0.0.1".toList) (some "80a".toList)).out = .exit EXIT_FAILURE msg ∧
      (main example_world ["server".toList, "127.0.0.1".toList, "80a".toList]).out =
        .exit EXIT_FAILURE msg ∧
      (main example_world ["server".toList, "127.0.0.1".toList, "80a".toList]).trace = [] ∧
      EXIT_FAILURE ≠ 0) ∧
    (∃ msg, (parse_in_port_t example_world.noconv_errno (some "server".toList)
          "65536".toList).out = .exit EXIT_FAILURE msg ∧
      (handle_arguments example_world.noconv_errno (some "server".toList)
        (some "127.0.0.1".toList) (some "65536".toList)).out = .exit EXIT_FAILURE msg ∧
      (main example_world ["server".toList, "127.0.0.1".toList, "65536".toList]).out =
        .exit EXIT_FAILURE msg ∧
      (main example_world ["server".toList, "127.0.0.1".toList, "65536".toList]).trace = [] ∧
      EXIT_FAILURE ≠ 0) :=
  ⟨parse_in_port_t_rejects example_world _ _ _
      (.inl ⟨⟨'a', by decide, by decide⟩, fun hn => by
        have := numeral_endptr 0 _ hn
        revert this
        decide⟩),
    parse_in_port_t_rejects example_world _ _ _
      (.inr ⟨[], [], "65536".toList, rfl, by simp, by decide, by decide,
        .inl ⟨.inl rfl, by decide⟩⟩)⟩

/-- C3 (counterexample). The port string `+80` contains the non-digit `+`, yet
`parse_in_port_t` returns port 80 and `main` goes on to bind the socket to it.
Leading white space is accepted in the same way, and the negative number
`-18446744073709551615` is accepted as port 1. -/
theorem parse_in_port_t_accepts_sign :
    (∃ c ∈ "+80".toList, isdigit c = false) ∧
      (parse_in_port_t 0 (some "server".toList) "+80".toList).out = .ret 80 ∧
      (parse_in_port_t 0 (some "server".toList) " 80".toList).out = .ret 80 ∧
      (parse_in_port_t 0 (some "server".toList) "-18446744073709551615".toList).out =
        .ret 1 ∧
      MainEvent.bind 3 80 true ∈
        (main example_world ["server".toList, "127.0.0.1".toList, "+80".toList]).trace := by
  decide

/-- C4 (the code breaks the claim). With three arguments after the program
name (`argc` = 4) `parse_arguments` returns the first two instead of calling
`usage`: the test `optind < argc - 3` refuses only `argc` above 4. The
function returns exactly when `argc` is 3 or 4 and exits with `EXIT_FAILURE`
otherwise. -/
theorem parse_arguments_accepts_three_arguments :
    (parse_arguments
        ["server".toList, "127.0.0.1".toList, "8080".toList, "extra".toList]).out =
        .ret (some "127.0.0.1".toList, some "8080".toList) ∧
      (∀ argv : List CString, (∃ args, (parse_arguments argv).out = .ret args) ↔
        (argv.length = 3 ∨ argv.length = 4)) ∧
      (∀ argv : List CString, argv.length ≠ 3 → argv.length ≠ 4 →
        ∃ msg, (parse_arguments argv).out = .exit EXIT_FAILURE msg) := by
  refine ⟨by decide, ?_, ?_⟩
  · intro argv
    unfold parse_arguments usage optind
    simp only
    split_ifs with h1 h2 h3
    · simp; omega
    · simp; omega
    · simp; omega
    · simp; omega
  · intro argv h3 h4
    unfold parse_arguments usage optind
    simp only
    split_ifs with h1 h2 h3
    · exact ⟨_, rfl⟩
    · exact ⟨_, rfl⟩
    · exact ⟨_, rfl⟩
    · exfalso; omega

/-! ## Command dispatch -/

/-- A line printed while the peer is still there kills nothing. -/
theorem printf_killed_false (fds : FdTable) : printf_killed fds false = false := by
  unfold printf_killed
  split <;> rfl

/-- An empty command ends the process before the resolver is called. -/
theorem execCommand_empty (w : ConnWorld) (fds : FdTable) (command : CString)
    (h : pieces ' ' command = []) :
    execCommand w fds command = ⟨[], .exit EXIT_FAILURE "No command provided."⟩ := by
  simp [execCommand, parseCommand_eq, h, HUNDRED]

/-- A command that is not found ends the process before `fork`. -/
theorem execCommand_not_found (w : ConnWorld) (fds : FdTable) (command name : CString)
    (rest : List CString) (h : pieces ' ' command = name :: rest)
    (hcap : rest.length + 2 ≤ HUNDRED)
    (hf : findBinaryInPath w.path w.access name = some none) :
    execCommand w fds command =
      ⟨[.findBinaryInPath name none], .exit EXIT_FAILURE "Command not found"⟩ := by
  have : ¬ HUNDRED < rest.length + 1 + 1 := by omega
  simp [execCommand, parseCommand_eq, h, hf, this]

/-- A command that is found is run in a child; the parent waits, prints the
status and returns, unless that line raises `SIGPIPE`. -/
theorem execCommand_success (w : ConnWorld) (fds : FdTable)
    (command name binary_path : CString) (rest : List CString) (pid : Nat)
    (h : pieces ' ' command = name :: rest) (hcap : rest.length + 2 ≤ HUNDRED)
    (hf : findBinaryInPath w.path w.access name = some (some binary_path))
    (hk : w.fork = some pid) :
    execCommand w fds command =
      ⟨[.findBinaryInPath name (some binary_path), .fork (some pid), .waitpid pid,
          .printf (fds STDOUT_FILENO)],
        if printf_killed fds w.report_sigpipe then .killed SIGPIPE else .ret ()⟩ := by
  have : ¬ HUNDRED < rest.length + 1 + 1 := by omega
  simp [execCommand, parseCommand_eq, h, hf, hk, this]

/-- The second half of `handle_connection` on a descriptor that is open. -/
theorem dispatch_eq (w : ConnWorld) (fds : FdTable) (client_sockfd : Nat) (file : File)
    (before : List Event) (hopen : fds client_sockfd = some file) :
    dispatch w fds client_sockfd before =
      match (execCommand w (Function.update fds STDOUT_FILENO (some file))
          (cstr w.read.message)).out with
      | .ret _ =>
        ⟨before ++ [.dup2 client_sockfd STDOUT_FILENO true] ++
            (execCommand w (Function.update fds STDOUT_FILENO (some file))
              (cstr w.read.message)).trace ++ [.close client_sockfd],
          close (Function.update fds STDOUT_FILENO (some file)) client_sockfd, .ret ()⟩
      | .exit code diagnostic =>
        ⟨before ++ [.dup2 client_sockfd STDOUT_FILENO true] ++
            (execCommand w (Function.update fds STDOUT_FILENO (some file))
              (cstr w.read.message)).trace,
          Function.update fds STDOUT_FILENO (some file), .exit code diagnostic⟩
      | .killed signal =>
        ⟨before ++ [.dup2 client_sockfd STDOUT_FILENO true] ++
            (execCommand w (Function.update fds STDOUT_FILENO (some file))
              (cstr w.read.message)).trace,
          Function.update fds STDOUT_FILENO (some file), .killed signal⟩
      | .undefined =>
        ⟨before ++ [.dup2 client_sockfd STDOUT_FILENO true] ++
            (execCommand w (Function.update fds STDOUT_FILENO (some file))
              (cstr w.read.message)).trace,
          Function.update fds STDOUT_FILENO (some file), .undefined⟩
      | .fuel =>
        ⟨before ++ [.dup2 client_sockfd STDOUT_FILENO true] ++
            (execCommand w (Function.update fds STDOUT_FILENO (some file))
              (cstr w.read.message)).trace,
          Function.update fds STDOUT_FILENO (some file), .fuel⟩ := by
  simp only [dispatch, dup2, hopen]

/-- After a positive read that stays within the buffer and whose line is
printed, `handle_connection` goes on to its second half. -/
theorem handle_connection_pos (w : ConnWorld) (fds : FdTable) (client_sockfd : Nat)
    (hpos : 0 < w.read.received) (hin : w.read.received.toNat < BUFFER)
    (hnk : printf_killed fds w.message_sigpipe = false) :
    handle_connection w fds client_sockfd =
      dispatch w fds client_sockfd [.read client_sockfd w.read.received,
        .terminate w.read.received.toNat, .printf (fds STDOUT_FILENO)] := by
  have h0 : w.read.received ≠ 0 := by omega
  have h1 : ¬ w.read.received < 0 := by omega
  have h2 : ¬ BUFFER ≤ w.read.received.toNat := by omega
  simp [handle_connection, h0, h1, h2, hnk]

/-- After a read of zero bytes, or a failed read, the message is the empty
command. -/
theorem nonpositive_read_empty (r : ReadResult) (h : r.received ≤ 0) :
    pieces ' ' (cstr r.message) = [] := by
  cases r with
  | error => simp [ReadResult.message, cstr, pieces]
  | data bytes =>
    simp only [ReadResult.received, BUFFER] at h
    have : bytes = [] := by
      cases bytes with
      | nil => rfl
      | cons c t =>
        simp only [List.length_cons] at h
        omega
    subst this
    simp [ReadResult.message, cstr, pieces]

/-- The second half of `handle_connection` on the empty command: the process
exits, and nothing but `dup2` is added to the calls. -/
theorem dispatch_empty (w : ConnWorld) (fds : FdTable) (client_sockfd : Nat) (file : File)
    (before : List Event) (hopen : fds client_sockfd = some file)
    (hp : pieces ' ' (cstr w.read.message) = []) :
    dispatch w fds client_sockfd before =
      ⟨before ++ [.dup2 client_sockfd STDOUT_FILENO true],
        Function.update fds STDOUT_FILENO (some file),
        .exit EXIT_FAILURE "No command provided."⟩ := by
  rw [dispatch_eq w fds client_sockfd file before hopen, execCommand_empty w _ _ hp]
  simp

/-- C5 (amended). For every accepted connection (its descriptor is open) whose
read returns a positive byte count below `BUFFER`, when the line printed about
the read raises no `SIGPIPE`: if command dispatch succeeds (a first token, at
most 99 tokens, resolved, a child forked, and the line printed about the child
raises no `SIGPIPE`), `handle_connection` returns to the accept loop, its last
call is `close(client_sockfd)`, the descriptor is closed and one child was
created; if the command is empty, or if it has at most 99 tokens and is not
found, `execCommand` terminates the process with `EXIT_FAILURE`,
`close(client_sockfd)` is not reached and no child is created. When the read
returns zero bytes or fails, no command is executed: no child is created and
the resolver is not called. -/
theorem handle_connection_closes_after_dispatch (w : ConnWorld) (fds : FdTable)
    (client_sockfd : Nat) (hopen : fds client_sockfd ≠ none) :
    (0 < w.read.received → w.read.received.toNat < BUFFER →
      printf_killed fds w.message_sigpipe = false →
      (∀ name rest binary_path pid, pieces ' ' (cstr w.read.message) = name :: rest →
        rest.length + 2 ≤ HUNDRED →
        findBinaryInPath w.path w.access name = some (some binary_path) →
        w.fork = some pid → w.report_sigpipe = false →
        (handle_connection w fds client_sockfd).out = .ret () ∧
        (handle_connection w fds client_sockfd).trace.getLast? = some (.close client_sockfd) ∧
        (handle_connection w fds client_sockfd).fds client_sockfd = none ∧
        (handle_connection w fds client_sockfd).trace.countP Event.created_child = 1) ∧
      (pieces ' ' (cstr w.read.message) = [] →
        (handle_connection w fds client_sockfd).out =
          .exit EXIT_FAILURE "No command provided." ∧
        Event.close client_sockfd ∉ (handle_connection w fds client_sockfd).trace ∧
        (handle_connection w fds client_sockfd).trace.countP Event.created_child = 0) ∧
      (∀ name rest, pieces ' ' (cstr w.read.message) = name :: rest →
        rest.length + 2 ≤ HUNDRED →
        findBinaryInPath w.path w.access name = some none →
        (handle_connection w fds client_sockfd).out =
          .exit EXIT_FAILURE "Command not found" ∧
        Event.close client_sockfd ∉ (handle_connection w fds client_sockfd).trace ∧
        (handle_connection w fds client_sockfd).trace.countP Event.created_child = 0)) ∧
    (w.read.received ≤ 0 →
      (handle_connection w fds client_sockfd).trace.countP Event.created_child = 0 ∧
      (handle_connection w fds client_sockfd).trace.countP Event.resolver_call = 0) := by
  obtain ⟨file, hfile⟩ := Option.ne_none_iff_exists'.mp hopen
  refine ⟨fun hpos hin hnk => ⟨?_, ?_, ?_⟩, ?_⟩
  · intro name rest binary_path pid hp hcap hf hk hrep
    rw [handle_connection_pos w fds client_sockfd hpos hin hnk,
      dispatch_eq w fds client_sockfd file _ hfile,
      execCommand_success w _ _ name binary_path rest pid hp hcap hf hk, hrep,
      printf_killed_false]
    refine ⟨rfl, ?_, by simp [close], ?_⟩
    · show List.getLast? (_ ++ [Event.close client_sockfd]) = _
      rw [List.getLast?_append]
      rfl
    · simp [List.countP_cons, List.countP_append, Event.created_child]
  · intro hp
    rw [handle_connection_pos w fds client_sockfd hpos hin hnk,
      dispatch_empty w fds client_sockfd file _ hfile hp]
    simp [List.countP_cons, Event.created_child]
  · intro name rest hp hcap hf
    rw [handle_connection_pos w fds client_sockfd hpos hin hnk,
      dispatch_eq w fds client_sockfd file _ hfile,
      execCommand_not_found w _ _ name rest hp hcap hf]
    simp [List.countP_cons, Event.created_child]
  · intro hr
    have hp := nonpositive_read_empty _ hr
    unfold handle_connection
    simp only
    split_ifs with h1 h2 h3 h4 h5 <;>
      first
      | omega
      | simp [dispatch_empty w fds client_sockfd file _ hfile hp, List.countP_cons,
          Event.created_child, Event.resolver_call]

/-- C5 (witness). The connection `example_conn` on descriptor 4 sends
`echo hi`: the handler returns, its last call closes descriptor 4, and one
child was created. -/
theorem handle_connection_closes_after_dispatch_witness :
    example_fds 4 ≠ none ∧ 0 < example_conn.read.received ∧
      (handle_connection example_conn example_fds 4).out = .ret () ∧
      (handle_connection example_conn example_fds 4).trace.getLast? = some (.close 4) ∧
      (handle_connection example_conn example_fds 4).fds 4 = none ∧
      (handle_connection example_conn example_fds 4).trace.countP Event.created_child = 1 :=
  ⟨by decide, by decide,
    ((handle_connection_closes_after_dispatch example_conn example_fds 4 (by decide)).1
      (by decide) (by decide) (by decide)).1 "echo".toList ["hi".toList] "/bin/echo".toList 77
      (by decide) (by decide) (by decide) rfl rfl⟩

/-- C5 (counterexample). The connection on descriptor 4 is open. When it sends
the name of a program that is in no directory, and when the peer closes it
without sending a byte, `handle_connection` does not return to the accept
loop: the process exits with `EXIT_FAILURE` and `close(4)` was never called. -/
theorem handle_connection_exits_without_close :
    example_fds 4 = some (.connection 0) ∧
      (handle_connection missing_command_conn example_fds 4).out =
        .exit EXIT_FAILURE "Command not found" ∧
      Event.close 4 ∉ (handle_connection missing_command_conn example_fds 4).trace ∧
      (handle_connection closed_conn example_fds 4).out =
        .exit EXIT_FAILURE "No command provided." ∧
      Event.close 4 ∉ (handle_connection closed_conn example_fds 4).trace := by
  decide

/-- When `handle_connection` returns it has run its second half to the end. -/
theorem handle_connection_ret (w : ConnWorld) (fds : FdTable) (client_sockfd : Nat)
    (h : (handle_connection w fds client_sockfd).out = .ret ()) :
    ∃ before, handle_connection w fds client_sockfd = dispatch w fds client_sockfd before := by
  unfold handle_connection at h ⊢
  simp only at h ⊢
  split_ifs at h ⊢ with h1 h2 h3 h4 h5
  all_goals exact ⟨_, rfl⟩

/-- C8 (the code breaks the claim). The handler does attach the standard
output to the connection before the command runs: `dup2` precedes the calls of
`execCommand` in the trace, and the line about the child is printed on the
connection. But when `handle_connection` returns, descriptor 4 is closed while
`STDOUT_FILENO` still refers to connection 0: nothing undoes the `dup2`, so the
connection stays open after its turn of the loop. This holds for every
connection whose handler returns. -/
theorem handle_connection_leaves_stdout_on_connection :
    example_fds 4 = some (.connection 0) ∧
      (handle_connection example_conn example_fds 4).trace =
        [.read 4 7, .terminate 7, .printf (some .terminal), .dup2 4 STDOUT_FILENO true,
          .findBinaryInPath "echo".toList (some "/bin/echo".toList), .fork (some 77),
          .waitpid 77, .printf (some (.connection 0)), .close 4] ∧
      (handle_connection example_conn example_fds 4).out = .ret () ∧
      (handle_connection example_conn example_fds 4).fds 4 = none ∧
      (handle_connection example_conn example_fds 4).fds STDOUT_FILENO =
        some (.connection 0) ∧
      (∀ (w : ConnWorld) (fds : FdTable) (client_sockfd : Nat) (file : File),
        fds client_sockfd = some file → client_sockfd ≠ STDOUT_FILENO →
        (handle_connection w fds client_sockfd).out = .ret () →
        (handle_connection w fds client_sockfd).fds STDOUT_FILENO = some file) := by
  refine ⟨by decide, by decide, by decide, by decide, by decide, ?_⟩
  intro w fds client_sockfd file hopen hne hout
  obtain ⟨before, hb⟩ := handle_connection_ret w fds client_sockfd hout
  rw [hb, dispatch_eq w fds client_sockfd file before hopen] at hout ⊢
  cases hx : (execCommand w (Function.update fds STDOUT_FILENO (some file))
      (cstr w.read.message)).out with
  | ret u => simp [close, Function.update, hne, Ne.symm hne]
  | exit code msg => simp [hx] at hout
  | killed signal => simp [hx] at hout
  | undefined => simp [hx] at hout
  | fuel => simp [hx] at hout

set_option maxRecDepth 1000000 in
/-- C9 (the code breaks the claim). A read that fills the buffer returns
`received` = 1024 = `BUFFER`, which `read(fd, message, sizeof(message))` can
return, and the terminator is then stored at `message[1024]`, one past the last
byte of `char message[BUFFER]`; the run has no defined behaviour from there.
After every positive read the store is at index `received`. -/
theorem handle_connection_terminator_out_of_bounds :
    full_buffer.length = BUFFER ∧
      full_buffer_conn.read.received = 1024 ∧
      Event.terminate 1024 ∈ (handle_connection full_buffer_conn example_fds 4).trace ∧
      ¬ (1024 < BUFFER) ∧
      (handle_connection full_buffer_conn example_fds 4).out = .undefined ∧
      (∀ (w : ConnWorld) (fds : FdTable) (client_sockfd : Nat),
        fds client_sockfd ≠ none → 0 < w.read.received →
        Event.terminate w.read.received.toNat ∈
          (handle_connection w fds client_sockfd).trace) := by
  refine ⟨by decide, by decide, ?_, by decide, by decide, ?_⟩
  · decide
  · intro w fds client_sockfd hopen hpos
    obtain ⟨file, hfile⟩ := Option.ne_none_iff_exists'.mp hopen
    unfold handle_connection
    simp only
    split_ifs with h1 h2 h3 h4
    all_goals first
      | omega
      | simp
      | (rw [dispatch_eq w fds client_sockfd file _ hfile]
         cases hx : (execCommand w (Function.update fds STDOUT_FILENO (some file))
           (cstr w.read.message)).out <;> simp)

/-! ## The accept loop -/

/-- In `stale_world` the first client has gone when the second connection is
accepted: the line `socket_accept_connection` prints goes to the socket that
the first connection left on the standard output, and the process is killed
by `SIGPIPE` before the flag is seen set. -/
theorem main_killed_by_stale_stdout :
    (main stale_world example_argv).out = .killed SIGPIPE ∧
      (main stale_world example_argv).trace.filterMap MainEvent.flag =
        [false, false, false, false] ∧
      (main stale_world example_argv).trace.countP MainEvent.is_close = 0 := by
  decide

end Server
